import Mathlib

/-!
Shallow embedding of `src/langchain_hcx/embeddings/hyperclova_embedding.py`
(class `HCXEmbeddings`).  The HTTP layer is modelled by an oracle
`net : HttpRequest → Json` giving the parsed JSON body of the provider's
response to each request; every function that may touch the network also
returns the list of requests it issued, in the order it issued them.
Python exceptions are modelled by `Except HcxError`.
-/

namespace HCX

/-- Parsed JSON values.  The provider responses and request bodies are JSON;
numbers are modelled as rationals (no arithmetic is ever performed on them,
they are carried through opaquely). -/
inductive Json where
  | null : Json
  | bool : Bool → Json
  | num : Rat → Json
  | str : String → Json
  | arr : List Json → Json
  | obj : List (String × Json) → Json

/-- Python dictionary subscripting `j[key]` on a parsed JSON value: `some`
the field value when `j` is an object that has the key, otherwise `none`
(Python would raise `KeyError` / `TypeError`; the two failure kinds are
modelled uniformly by `HcxError.keyError` at the use sites). -/
def Json.lookup : Json → String → Option Json
  | .obj fields, key => List.lookup key fields
  | _, _ => none

/-- The Python exceptions the adapter can raise. -/
inductive HcxError where
  | typeError : String → HcxError
  | keyError : String → HcxError
  | valueError : String → HcxError
  | indexError : String → HcxError
  | providerError : Json → HcxError

/-- Python `==` between a value and a string literal: true exactly when the
value is that very string (any non-string compares unequal). -/
def Json.eqStr : Json → String → Bool
  | .str t, s => t == s
  | _, _ => false

/-- `True` exactly on `Except.ok`. -/
def succeeds {α : Type} : Except HcxError α → Bool
  | .ok _ => true
  | .error _ => false

/-- The runtime inputs `_send_request` / `_asend_request` can receive: the
annotation is `Union[str, Dict[str, str]]`, and the spec also considers a
non-string non-dict value such as an integer reaching the method. -/
inductive PyVal where
  | str : String → PyVal
  | dict : List (String × String) → PyVal
  | int : Int → PyVal
  | none : PyVal
deriving DecidableEq, Repr

/-- `isinstance(messages, dict)`. -/
def PyVal.isDict : PyVal → Bool
  | .dict _ => true
  | _ => false

/-- `isinstance(messages, str)`. -/
def PyVal.isStr : PyVal → Bool
  | .str _ => true
  | _ => false

/-- `json.dumps(messages)`, as the JSON value it serializes. -/
def pyToJson : PyVal → Json
  | .str s => .str s
  | .dict fields => .obj (fields.map fun kv => (kv.1, Json.str kv.2))
  | .int n => .num (n : Rat)
  | .none => .null

/-- The configured client: `model`, the three secrets (as the strings their
`get_secret_value()` returns) and the API host, with the source's defaults. -/
structure HCXEmbeddings where
  model : String := "clir-emb-dolphin"
  api_key : String
  api_gw_key : String
  app_id : String
  ncp_api_base : String := "clovastudio.apigw.ntruss.com"
deriving DecidableEq, Repr

/-- One HTTP request as both `_send_request` (via `http.client.HTTPSConnection`)
and `_asend_request` (via `aiohttp`, `https://` + the same host and path)
issue it: method, host, path, headers and the JSON value the body serializes. -/
structure HttpRequest where
  method : String
  host : String
  path : String
  headers : List (String × String)
  body : Json

/-- The headers dictionary both request helpers build. -/
def requestHeaders (cfg : HCXEmbeddings) : List (String × String) :=
  [("Content-Type", "application/json"),
   ("X-NCP-CLOVASTUDIO-API-KEY", cfg.api_key),
   ("X-NCP-APIGW-API-KEY", cfg.api_gw_key)]

/-- The POST both helpers issue:
path `/testapp/v1/api-tools/embedding/{model}/{app_id}` on `ncp_api_base`,
the three headers, and the given JSON body. -/
def mkRequest (cfg : HCXEmbeddings) (body : Json) : HttpRequest :=
  { method := "POST"
    host := cfg.ncp_api_base
    path := "/testapp/v1/api-tools/embedding/" ++ cfg.model ++ "/" ++ cfg.app_id
    headers := requestHeaders cfg
    body := body }

/-- The response handling of `_send_request` (lines 92-95):
`result['status']['code']` is read first (a missing field is a lookup
failure, modelled `keyError`); if it equals the literal `'20000'` the value
at `result['result']['embedding']` is returned, and otherwise
`Exception(f"Error: {str(result)}")` is raised, carrying the whole parsed
response, modelled `providerError result`. -/
def processResponseSync (result : Json) : Except HcxError Json :=
  match (result.lookup "status").bind (fun s => s.lookup "code") with
  | .none => .error (.keyError "status code")
  | .some code =>
    if code.eqStr "20000" then
      match (result.lookup "result").bind (fun r => r.lookup "embedding") with
      | .none => .error (.keyError "result embedding")
      | .some emb => .ok emb
    else .error (.providerError result)

/-- The response handling of `_asend_request` (lines 110-113), textually the
same logic as the blocking one. -/
def processResponseAsync (result : Json) : Except HcxError Json :=
  match (result.lookup "status").bind (fun s => s.lookup "code") with
  | .none => .error (.keyError "status code")
  | .some code =>
    if code.eqStr "20000" then
      match (result.lookup "result").bind (fun r => r.lookup "embedding") with
      | .none => .error (.keyError "result embedding")
      | .some emb => .ok emb
    else .error (.providerError result)

/-- The `if isinstance(messages, str): messages = {"text": messages}`
re-binding at the top of `_send_request`. -/
def wrapText : PyVal → PyVal
  | .str s => .dict [("text", s)]
  | m => m

/-- `_send_request`: a string input is wrapped to `{"text": messages}`;
anything that is then not a dict raises `TypeError` before any request;
otherwise one POST is issued with the serialized dict as body and the
response is handled by `processResponseSync`. -/
def sendRequest (cfg : HCXEmbeddings) (net : HttpRequest → Json) (messages : PyVal) :
    Except HcxError Json × List HttpRequest :=
  let messages := wrapText messages
  if messages.isDict then
    let req := mkRequest cfg (pyToJson messages)
    (processResponseSync (net req), [req])
  else
    (.error (.typeError "Messages should be a string or a dictionary with text key"), [])

/-- `_asend_request`: no wrapping of string inputs and no type check — the
input is serialized as-is (`json.dumps(messages)`) and one POST is always
issued; the response is handled by `processResponseAsync`. -/
def asendRequest (cfg : HCXEmbeddings) (net : HttpRequest → Json) (messages : PyVal) :
    Except HcxError Json × List HttpRequest :=
  let req := mkRequest cfg (pyToJson messages)
  (processResponseAsync (net req), [req])

/-- The request `_send_request` issues for the string `t`. -/
def textReq (cfg : HCXEmbeddings) (t : String) : HttpRequest :=
  mkRequest cfg (Json.obj [("text", Json.str t)])

/-- The request `_asend_request` issues for the string `t` (bare JSON
string body, since the async helper does not wrap). -/
def atextReq (cfg : HCXEmbeddings) (t : String) : HttpRequest :=
  mkRequest cfg (Json.str t)

/-- The vector `_send_request` returns for the string `t`, when it succeeds. -/
def sentVec (cfg : HCXEmbeddings) (net : HttpRequest → Json) (t : String) : Option Json :=
  match (sendRequest cfg net (.str t)).1 with
  | .ok v => .some v
  | .error _ => .none

/-- The vector `_asend_request` returns for the string `t`, when it succeeds. -/
def asentVec (cfg : HCXEmbeddings) (net : HttpRequest → Json) (t : String) : Option Json :=
  match (asendRequest cfg net (.str t)).1 with
  | .ok v => .some v
  | .error _ => .none

/-- `_get_embedding`: one `_send_request` per text, sequentially, in input
order; an exception mid-loop propagates and the partial list is discarded. -/
def getEmbedding (cfg : HCXEmbeddings) (net : HttpRequest → Json) :
    List String → Except HcxError (List Json) × List HttpRequest
  | [] => (.ok [], [])
  | t :: ts =>
    match sendRequest cfg net (.str t) with
    | (.error e, reqs) => (.error e, reqs)
    | (.ok v, reqs) =>
      match getEmbedding cfg net ts with
      | (.error e, rest) => (.error e, reqs ++ rest)
      | (.ok vs, rest) => (.ok (v :: vs), reqs ++ rest)

/-- `_aget_embedding`: one awaited `_asend_request` per text, sequentially,
in input order; an exception mid-loop propagates and the partial list is
discarded. -/
def agetEmbedding (cfg : HCXEmbeddings) (net : HttpRequest → Json) :
    List String → Except HcxError (List Json) × List HttpRequest
  | [] => (.ok [], [])
  | t :: ts =>
    match asendRequest cfg net (.str t) with
    | (.error e, reqs) => (.error e, reqs)
    | (.ok v, reqs) =>
      match agetEmbedding cfg net ts with
      | (.error e, rest) => (.error e, reqs ++ rest)
      | (.ok vs, rest) => (.ok (v :: vs), reqs ++ rest)

/-- `embed_documents`: delegates to `_get_embedding`. -/
def embed_documents (cfg : HCXEmbeddings) (net : HttpRequest → Json) (texts : List String) :
    Except HcxError (List Json) × List HttpRequest :=
  getEmbedding cfg net texts

/-- `aembed_documents`: delegates to `_aget_embedding`. -/
def aembed_documents (cfg : HCXEmbeddings) (net : HttpRequest → Json) (texts : List String) :
    Except HcxError (List Json) × List HttpRequest :=
  agetEmbedding cfg net texts

/-- `embed_query`: `self.embed_documents([text])[0]` — a raised exception
propagates, otherwise element 0 of the returned list (an empty list would be
an `IndexError`, which for a one-element batch cannot happen). -/
def embed_query (cfg : HCXEmbeddings) (net : HttpRequest → Json) (text : String) :
    Except HcxError Json × List HttpRequest :=
  match embed_documents cfg net [text] with
  | (.error e, reqs) => (.error e, reqs)
  | (.ok [], reqs) => (.error (.indexError "list index out of range"), reqs)
  | (.ok (v :: _), reqs) => (.ok v, reqs)

/-- `aembed_query`: the source line is
`return await self.aembed_documents([text])[0]`.  Subscripting binds tighter
than `await`, so `[0]` is applied to the coroutine object returned by
`aembed_documents` before it is awaited; a coroutine is not subscriptable, so
every call raises `TypeError` at once, the coroutine body never runs, and no
request is issued. -/
def aembed_query (_cfg : HCXEmbeddings) (_net : HttpRequest → Json) (_text : String) :
    Except HcxError Json × List HttpRequest :=
  (.error (.typeError "coroutine object is not subscriptable"), [])

/-- The constructor arguments `check_api_keys` sees in `values`: the model
(with its field default) and the three secret fields, `none` when the caller
did not supply one (field default `None`).  A supplied secret is a pydantic
v1 `SecretStr` wrapping the given string; `SecretStr` defines `__len__`, so
`SecretStr("")` is falsy just as the empty string itself is. -/
structure ConstructorValues where
  model : String := "clir-emb-dolphin"
  api_key : Option String := Option.none
  api_gw_key : Option String := Option.none
  app_id : Option String := Option.none
deriving DecidableEq, Repr

/-- The three environment variables `check_api_keys` can fall back to:
`none` when unset. -/
structure Env where
  NCP_CLOVASTUDIO_API_KEY : Option String := Option.none
  NCP_APIGW_API_KEY : Option String := Option.none
  NCP_EMB_APP_ID : Option String := Option.none
deriving DecidableEq, Repr

/-- Python truthiness of an optional string-like value: present and
non-empty.  This is both `if env_key in os.environ and os.environ[env_key]`
for an environment variable and `if key in data and data[key]` for a
supplied `SecretStr` (falsy when it wraps the empty string, via `__len__`). -/
def truthyOpt : Option String → Bool
  | .some s => decide (s ≠ "")
  | .none => false

/-- `langchain_core.utils.get_from_env` at these call sites (no default
passed): the environment variable when set and non-empty
(`if env_key in os.environ and os.environ[env_key]`), else
`ValueError("Did not find ...")`. -/
def get_from_env (envVal : Option String) (key : String) : Except HcxError String :=
  match envVal with
  | .some s => if s = "" then .error (.valueError ("Did not find " ++ key)) else .ok s
  | .none => .error (.valueError ("Did not find " ++ key))

/-- `langchain_core.utils.get_from_dict_or_env` as the source calls it: the
explicitly supplied value wins when present and truthy
(`if key in data and data[key]`; a supplied empty secret is falsy), else
`get_from_env` resolves the environment variable or raises. -/
def get_from_dict_or_env (v envVal : Option String) (key : String) :
    Except HcxError String :=
  match v with
  | .some s => if s = "" then get_from_env envVal key else .ok s
  | .none => get_from_env envVal key

/-- The validated configuration `check_api_keys` returns in `values`. -/
structure ResolvedConfig where
  model : String
  api_key : String
  api_gw_key : String
  app_id : String
deriving DecidableEq, Repr

/-- `check_api_keys` (the `root_validator`): resolve the three secrets in
order, each from the supplied value or its environment variable, propagating
the `ValueError` of the first that is missing; then reject any model outside
the two recognized identifiers. -/
def check_api_keys (values : ConstructorValues) (env : Env) :
    Except HcxError ResolvedConfig :=
  match get_from_dict_or_env values.api_key env.NCP_CLOVASTUDIO_API_KEY "api_key" with
  | .error e => .error e
  | .ok api_key =>
    match get_from_dict_or_env values.api_gw_key env.NCP_APIGW_API_KEY "api_gw_key" with
    | .error e => .error e
    | .ok api_gw_key =>
      match get_from_dict_or_env values.app_id env.NCP_EMB_APP_ID "app_id" with
      | .error e => .error e
      | .ok app_id =>
        if values.model = "clir-emb-dolphin" ∨ values.model = "clir-sts-dolphin" then
          .ok ⟨values.model, api_key, api_gw_key, app_id⟩
        else
          .error (.valueError "Invalid model")

/-! Concrete fixtures used by the closed evaluations. -/

/-- A concrete configured client. -/
def cfgEx : HCXEmbeddings :=
  { model := "clir-emb-dolphin", api_key := "k", api_gw_key := "g", app_id := "app" }

/-- A concrete success response: `status.code == "20000"` and
`result.embedding == [0.1, 0.2, 0.3]`. -/
def okResp : Json :=
  .obj [("status", .obj [("code", .str "20000")]),
        ("result", .obj [("embedding",
          .arr [.num (1/10), .num (2/10), .num (3/10)])])]

/-- A concrete failure response: `status.code == "40001"`. -/
def badResp : Json :=
  .obj [("status", .obj [("code", .str "40001")]),
        ("errorMessage", .str "bad request")]

/-- An oracle answering every request with `okResp`. -/
def netOk : HttpRequest → Json := fun _ => okResp

/-- An oracle answering the blocking request for `"a"` with `okResp` and
every other request with `badResp`. -/
def netPartial (req : HttpRequest) : Json :=
  match req.body with
  | .obj [("text", .str s)] => if s = "a" then okResp else badResp
  | _ => badResp

/-- An oracle answering the non-blocking request for `"a"` (bare string body)
with `okResp` and every other request with `badResp`. -/
def anetPartial (req : HttpRequest) : Json :=
  match req.body with
  | .str s => if s = "a" then okResp else badResp
  | _ => badResp

/-! Helper lemmas. -/

/-- `_send_request` on a string input: the text is wrapped, one request with
the wrapped body is issued and its response handled. -/
theorem sendRequest_str (cfg : HCXEmbeddings) (net : HttpRequest → Json) (t : String) :
    sendRequest cfg net (.str t)
      = (processResponseSync (net (textReq cfg t)), [textReq cfg t]) := rfl

/-- `_asend_request` on a string input: one request with the bare string body
is issued and its response handled. -/
theorem asendRequest_str (cfg : HCXEmbeddings) (net : HttpRequest → Json) (t : String) :
    asendRequest cfg net (.str t)
      = (processResponseAsync (net (atextReq cfg t)), [atextReq cfg t]) := rfl

/-- Response handling only ever raises a lookup failure or a provider error,
never a `TypeError`. -/
theorem processResponseSync_no_typeError (r : Json) (msg : String) :
    processResponseSync r ≠ .error (.typeError msg) := by
  unfold processResponseSync
  cases hc : (r.lookup "status").bind (fun s => s.lookup "code") with
  | none => simp
  | some code =>
    cases hq : code.eqStr "20000" with
    | false => simp [hq]
    | true =>
      cases he : (r.lookup "result").bind (fun s => s.lookup "embedding") with
      | none => simp [hq, he]
      | some emb => simp [hq, he]

/-- C1: the blocking wrapper does return the only vector of the one-element
batch (`embed_query("hello")` is the head of `embed_documents(["hello"])`),
but the non-blocking wrapper never does: `aembed_query` subscripts the
coroutine returned by `aembed_documents` before awaiting it, so it raises
`TypeError` on every input and issues no request, instead of returning the
first element of `aembed_documents([text])`. -/
theorem C1_aembed_query_subscripts_coroutine :
    (embed_documents cfgEx netOk ["hello"]).1
        = .ok [Json.arr [.num (1/10), .num (2/10), .num (3/10)]]
    ∧ (embed_query cfgEx netOk "hello").1
        = .ok (Json.arr [.num (1/10), .num (2/10), .num (3/10)])
    ∧ aembed_query cfgEx netOk "hello"
        = (.error (.typeError "coroutine object is not subscriptable"), []) :=
  ⟨rfl, rfl, rfl⟩

/-- C2 counterexample: for the string input `"hello"`, the non-blocking path
sends the bare JSON string `"hello"` as the request body, not the object
`{"text": "hello"}` the claim states. -/
theorem C2_async_body_not_wrapped :
    (asendRequest cfgEx netOk (.str "hello")).2 = [mkRequest cfgEx (Json.str "hello")]
    ∧ Json.str "hello" ≠ Json.obj [("text", Json.str "hello")] :=
  ⟨rfl, fun h => Json.noConfusion h⟩

/-- C2 (amended): for every string input, the blocking path sends one POST to
`/testapp/v1/api-tools/embedding/{model}/{app_id}` with the Content-Type and
the two API-key headers and body `{"text": <input>}`; the non-blocking path
sends one POST to the same path with the same headers, but its body is the
input serialized unchanged — a bare JSON string — because `_asend_request`
does not wrap string inputs. -/
theorem C2_request_shape (cfg : HCXEmbeddings) (net anet : HttpRequest → Json) (t : String) :
    (sendRequest cfg net (.str t)).2 =
      [{ method := "POST"
         host := cfg.ncp_api_base
         path := "/testapp/v1/api-tools/embedding/" ++ cfg.model ++ "/" ++ cfg.app_id
         headers := [("Content-Type", "application/json"),
                     ("X-NCP-CLOVASTUDIO-API-KEY", cfg.api_key),
                     ("X-NCP-APIGW-API-KEY", cfg.api_gw_key)]
         body := Json.obj [("text", Json.str t)] }]
    ∧ (asendRequest cfg anet (.str t)).2 =
      [{ method := "POST"
         host := cfg.ncp_api_base
         path := "/testapp/v1/api-tools/embedding/" ++ cfg.model ++ "/" ++ cfg.app_id
         headers := [("Content-Type", "application/json"),
                     ("X-NCP-CLOVASTUDIO-API-KEY", cfg.api_key),
                     ("X-NCP-APIGW-API-KEY", cfg.api_gw_key)]
         body := Json.str t }] :=
  ⟨rfl, rfl⟩

/-- C3 counterexample: the integer input `5` on the non-blocking path is not
rejected: one request is issued, with the serialized integer as body, and the
call returns whatever the provider answers (here a success). -/
theorem C3_async_accepts_int :
    (asendRequest cfgEx netOk (.int 5)).1
        = .ok (Json.arr [.num (1/10), .num (2/10), .num (3/10)])
    ∧ (asendRequest cfgEx netOk (.int 5)).2 = [mkRequest cfgEx (pyToJson (.int 5))] :=
  ⟨rfl, rfl⟩

/-- C3 (amended): a non-string, non-dict input makes the blocking path raise
the `TypeError` before any request is issued, but the non-blocking path
performs no such validation: it serializes the input as-is and always issues
the request. -/
theorem C3_validation_sync_only (cfg : HCXEmbeddings) (net anet : HttpRequest → Json)
    (m : PyVal) (h1 : m.isStr = false) (h2 : m.isDict = false) :
    sendRequest cfg net m
        = (.error (.typeError "Messages should be a string or a dictionary with text key"), [])
    ∧ (asendRequest cfg anet m).2 = [mkRequest cfg (pyToJson m)] := by
  cases m with
  | str s => simp [PyVal.isStr] at h1
  | dict d => simp [PyVal.isDict] at h2
  | int n => exact ⟨rfl, rfl⟩
  | none => exact ⟨rfl, rfl⟩

/-- C3 witness: the integer input `5` with a concrete client. -/
theorem C3_validation_sync_only_witness :
    sendRequest cfgEx netOk (.int 5)
        = (.error (.typeError "Messages should be a string or a dictionary with text key"), [])
    ∧ (asendRequest cfgEx netOk (.int 5)).2 = [mkRequest cfgEx (pyToJson (.int 5))] :=
  C3_validation_sync_only cfgEx netOk netOk (.int 5) rfl rfl

/-- C4: for every parsed response carrying `status.code == "20000"` and a
`result.embedding` field, both response handlers return exactly that
embedding value; for every parsed response whose status code is anything
else, both raise the provider error carrying the whole raw response. -/
theorem C4_response_dispatch (result : Json) :
    (∀ emb, (result.lookup "status").bind (fun s => s.lookup "code")
          = .some (Json.str "20000") →
        (result.lookup "result").bind (fun r => r.lookup "embedding") = .some emb →
        processResponseSync result = .ok emb ∧ processResponseAsync result = .ok emb)
    ∧ (∀ code, (result.lookup "status").bind (fun s => s.lookup "code") = .some code →
        code ≠ Json.str "20000" →
        processResponseSync result = .error (.providerError result)
        ∧ processResponseAsync result = .error (.providerError result)) := by
  constructor
  · intro emb hcode hemb
    constructor <;>
      simp [processResponseSync, processResponseAsync, hcode, hemb, Json.eqStr]
  · intro code hcode hne
    have hq : code.eqStr "20000" = false := by
      cases code with
      | str t =>
        simp only [Json.eqStr, beq_eq_false_iff_ne]
        intro hh
        exact hne (hh ▸ rfl)
      | null => rfl
      | bool b => rfl
      | num q => rfl
      | arr l => rfl
      | obj l => rfl
    constructor <;>
      simp [processResponseSync, processResponseAsync, hcode, hq]

/-- C4 witness: the spec's examples — an embedding `[0.1, 0.2, 0.3]` under
code `"20000"` is returned exactly, and a `"40001"` response raises the
provider error carrying the response. -/
theorem C4_response_dispatch_witness :
    processResponseSync okResp = .ok (Json.arr [.num (1/10), .num (2/10), .num (3/10)])
    ∧ processResponseSync badResp = .error (.providerError badResp) :=
  ⟨((C4_response_dispatch okResp).1 _ rfl rfl).1,
   ((C4_response_dispatch badResp).2 (Json.str "40001") rfl
      (fun h => by simp at h)).1⟩

/-- C8: given identical provider responses, the blocking and the
non-blocking single-text paths produce identical outcomes (the same vector,
or the same failure), and their response handlers are the same function of
the parsed response. -/
theorem C8_sync_async_agree (cfg : HCXEmbeddings) (net anet : HttpRequest → Json)
    (t : String) (h : net (textReq cfg t) = anet (atextReq cfg t)) :
    (sendRequest cfg net (.str t)).1 = (asendRequest cfg anet (.str t)).1
    ∧ ∀ result : Json, processResponseSync result = processResponseAsync result := by
  constructor
  · show processResponseSync (net (textReq cfg t))
        = processResponseAsync (anet (atextReq cfg t))
    rw [h]
    exact rfl
  · intro r
    rfl

/-- C8 witness: a concrete client and one oracle serving both paths. -/
theorem C8_sync_async_agree_witness :
    (sendRequest cfgEx netOk (.str "hello")).1 = (asendRequest cfgEx netOk (.str "hello")).1
    ∧ ∀ result : Json, processResponseSync result = processResponseAsync result :=
  C8_sync_async_agree cfgEx netOk netOk "hello" rfl

/-- C9: the empty batch returns the empty list and issues no request, on
both the blocking and the non-blocking path. -/
theorem C9_empty_batch (cfg : HCXEmbeddings) (net anet : HttpRequest → Json) :
    embed_documents cfg net [] = (.ok [], [])
    ∧ aembed_documents cfg anet [] = (.ok [], []) :=
  ⟨rfl, rfl⟩

/-- C10: the blocking path accepts any dict without checking for a `"text"`
key — the dict is serialized unchanged as the body of the one request, the
outcome is the handler applied to the response, and no `TypeError` is ever
raised for a dict; a string input, by contrast, is wrapped as
`{"text": <input>}` first. -/
theorem C10_dict_passthrough (cfg : HCXEmbeddings) (net : HttpRequest → Json)
    (d : List (String × String)) (s : String) :
    (sendRequest cfg net (.dict d)).1
        = processResponseSync
            (net (mkRequest cfg (Json.obj (d.map fun kv => (kv.1, Json.str kv.2)))))
    ∧ (sendRequest cfg net (.dict d)).2
        = [mkRequest cfg (Json.obj (d.map fun kv => (kv.1, Json.str kv.2)))]
    ∧ (∀ msg, (sendRequest cfg net (.dict d)).1 ≠ .error (.typeError msg))
    ∧ (sendRequest cfg net (.str s)).2 = [mkRequest cfg (Json.obj [("text", Json.str s)])] := by
  refine ⟨rfl, rfl, ?_, rfl⟩
  intro msg
  exact processResponseSync_no_typeError _ msg

/-- When every per-text blocking request succeeds, `_get_embedding` returns
each text's vector in input order and issues exactly one request per text,
in input order. -/
theorem getEmbedding_ok (cfg : HCXEmbeddings) (net : HttpRequest → Json)
    (texts : List String)
    (h : ∀ t ∈ texts, succeeds (sendRequest cfg net (.str t)).1 = true) :
    getEmbedding cfg net texts
      = (.ok (texts.map fun t => (sentVec cfg net t).getD Json.null),
         texts.map (textReq cfg)) := by
  induction texts with
  | nil => rfl
  | cons t ts ih =>
    have ht : succeeds (processResponseSync (net (textReq cfg t))) = true :=
      h t (List.mem_cons_self t ts)
    have hts : ∀ x ∈ ts, succeeds (sendRequest cfg net (.str x)).1 = true :=
      fun x hx => h x (List.mem_cons_of_mem t hx)
    cases hv : processResponseSync (net (textReq cfg t)) with
    | error e => rw [hv] at ht; simp [succeeds] at ht
    | ok v =>
      simp only [getEmbedding, sendRequest_str, hv, ih hts, List.map_cons]
      simp [sentVec, sendRequest_str, hv]

/-- When every per-text non-blocking request succeeds, `_aget_embedding`
returns each text's vector in input order and issues exactly one request per
text, in input order. -/
theorem agetEmbedding_ok (cfg : HCXEmbeddings) (net : HttpRequest → Json)
    (texts : List String)
    (h : ∀ t ∈ texts, succeeds (asendRequest cfg net (.str t)).1 = true) :
    agetEmbedding cfg net texts
      = (.ok (texts.map fun t => (asentVec cfg net t).getD Json.null),
         texts.map (atextReq cfg)) := by
  induction texts with
  | nil => rfl
  | cons t ts ih =>
    have ht : succeeds (processResponseAsync (net (atextReq cfg t))) = true :=
      h t (List.mem_cons_self t ts)
    have hts : ∀ x ∈ ts, succeeds (asendRequest cfg net (.str x)).1 = true :=
      fun x hx => h x (List.mem_cons_of_mem t hx)
    cases hv : processResponseAsync (net (atextReq cfg t)) with
    | error e => rw [hv] at ht; simp [succeeds] at ht
    | ok v =>
      simp only [agetEmbedding, asendRequest_str, hv, ih hts, List.map_cons]
      simp [asentVec, asendRequest_str, hv]

/-- When the blocking request for the text at position `k` fails and every
earlier one succeeds, `_get_embedding` propagates that failure and its
request trace stops at position `k`. -/
theorem getEmbedding_fail (cfg : HCXEmbeddings) (net : HttpRequest → Json)
    (texts : List String) (k : Nat) (hk : k < texts.length) (e : HcxError)
    (hfail : processResponseSync (net (textReq cfg (texts.get ⟨k, hk⟩))) = .error e)
    (hprev : ∀ t ∈ texts.take k,
      succeeds (processResponseSync (net (textReq cfg t))) = true) :
    getEmbedding cfg net texts = (.error e, (texts.take (k + 1)).map (textReq cfg)) := by
  induction texts generalizing k with
  | nil => exact absurd hk (Nat.not_lt_zero k)
  | cons t ts ih =>
    cases k with
    | zero =>
      have hfail0 : processResponseSync (net (textReq cfg t)) = .error e := hfail
      simp [getEmbedding, sendRequest_str, hfail0]
    | succ k =>
      have ht : succeeds (processResponseSync (net (textReq cfg t))) = true :=
        hprev t (by rw [List.take_succ_cons]; exact List.mem_cons_self t _)
      cases hv : processResponseSync (net (textReq cfg t)) with
      | error e2 => rw [hv] at ht; simp [succeeds] at ht
      | ok v =>
        have hk2 : k < ts.length := Nat.lt_of_succ_lt_succ hk
        have hfail2 : processResponseSync (net (textReq cfg (ts.get ⟨k, hk2⟩)))
            = .error e := hfail
        have hprev2 : ∀ x ∈ ts.take k,
            succeeds (processResponseSync (net (textReq cfg x))) = true := by
          intro x hx
          exact hprev x (by rw [List.take_succ_cons]; exact List.mem_cons_of_mem t hx)
        simp only [getEmbedding, sendRequest_str, hv, ih k hk2 hfail2 hprev2,
          List.take_succ_cons, List.map_cons]
        simp

/-- When the non-blocking request for the text at position `k` fails and
every earlier one succeeds, `_aget_embedding` propagates that failure and
its request trace stops at position `k`. -/
theorem agetEmbedding_fail (cfg : HCXEmbeddings) (net : HttpRequest → Json)
    (texts : List String) (k : Nat) (hk : k < texts.length) (e : HcxError)
    (hfail : processResponseAsync (net (atextReq cfg (texts.get ⟨k, hk⟩))) = .error e)
    (hprev : ∀ t ∈ texts.take k,
      succeeds (processResponseAsync (net (atextReq cfg t))) = true) :
    agetEmbedding cfg net texts = (.error e, (texts.take (k + 1)).map (atextReq cfg)) := by
  induction texts generalizing k with
  | nil => exact absurd hk (Nat.not_lt_zero k)
  | cons t ts ih =>
    cases k with
    | zero =>
      have hfail0 : processResponseAsync (net (atextReq cfg t)) = .error e := hfail
      simp [agetEmbedding, asendRequest_str, hfail0]
    | succ k =>
      have ht : succeeds (processResponseAsync (net (atextReq cfg t))) = true :=
        hprev t (by rw [List.take_succ_cons]; exact List.mem_cons_self t _)
      cases hv : processResponseAsync (net (atextReq cfg t)) with
      | error e2 => rw [hv] at ht; simp [succeeds] at ht
      | ok v =>
        have hk2 : k < ts.length := Nat.lt_of_succ_lt_succ hk
        have hfail2 : processResponseAsync (net (atextReq cfg (ts.get ⟨k, hk2⟩)))
            = .error e := hfail
        have hprev2 : ∀ x ∈ ts.take k,
            succeeds (processResponseAsync (net (atextReq cfg x))) = true := by
          intro x hx
          exact hprev x (by rw [List.take_succ_cons]; exact List.mem_cons_of_mem t hx)
        simp only [agetEmbedding, asendRequest_str, hv, ih k hk2 hfail2 hprev2,
          List.take_succ_cons, List.map_cons]
        simp

/-- C5: when every per-text request succeeds, `embed_documents` (and
`aembed_documents`) returns one vector per input text — the text's own
embedding, in input order — and the requests are issued one per text, in
input order. -/
theorem C5_batch_order (cfg : HCXEmbeddings) (net anet : HttpRequest → Json)
    (texts : List String)
    (h : ∀ t ∈ texts, succeeds (sendRequest cfg net (.str t)).1 = true)
    (ha : ∀ t ∈ texts, succeeds (asendRequest cfg anet (.str t)).1 = true) :
    (embed_documents cfg net texts).1
        = .ok (texts.map fun t => (sentVec cfg net t).getD Json.null)
    ∧ (embed_documents cfg net texts).2 = texts.map (textReq cfg)
    ∧ (aembed_documents cfg anet texts).1
        = .ok (texts.map fun t => (asentVec cfg anet t).getD Json.null)
    ∧ (aembed_documents cfg anet texts).2 = texts.map (atextReq cfg) := by
  unfold embed_documents aembed_documents
  rw [getEmbedding_ok cfg net texts h, agetEmbedding_ok cfg anet texts ha]
  exact ⟨rfl, rfl, rfl, rfl⟩

/-- C5 witness: a two-text batch against an all-success oracle. -/
theorem C5_batch_order_witness :
    (embed_documents cfgEx netOk ["a", "b"]).1
        = .ok (["a", "b"].map fun t => (sentVec cfgEx netOk t).getD Json.null)
    ∧ (embed_documents cfgEx netOk ["a", "b"]).2 = ["a", "b"].map (textReq cfgEx)
    ∧ (aembed_documents cfgEx netOk ["a", "b"]).1
        = .ok (["a", "b"].map fun t => (asentVec cfgEx netOk t).getD Json.null)
    ∧ (aembed_documents cfgEx netOk ["a", "b"]).2 = ["a", "b"].map (atextReq cfgEx) :=
  C5_batch_order cfgEx netOk netOk ["a", "b"] (by decide) (by decide)

/-- C6: when the request for the text at position `k` fails and the earlier
ones succeed, the batch call propagates exactly that failure, issues the
requests for positions `0..k` only — none after `k` — and returns no list
of vectors (on the blocking and on the non-blocking path). -/
theorem C6_batch_abort (cfg : HCXEmbeddings) (net anet : HttpRequest → Json)
    (texts : List String) (k : Nat) (hk : k < texts.length) :
    (∀ e, (sendRequest cfg net (.str (texts.get ⟨k, hk⟩))).1 = .error e →
       (∀ t ∈ texts.take k, succeeds (sendRequest cfg net (.str t)).1 = true) →
       (embed_documents cfg net texts).1 = .error e
       ∧ (embed_documents cfg net texts).2 = (texts.take (k + 1)).map (textReq cfg))
    ∧ (∀ e, (asendRequest cfg anet (.str (texts.get ⟨k, hk⟩))).1 = .error e →
       (∀ t ∈ texts.take k, succeeds (asendRequest cfg anet (.str t)).1 = true) →
       (aembed_documents cfg anet texts).1 = .error e
       ∧ (aembed_documents cfg anet texts).2 = (texts.take (k + 1)).map (atextReq cfg)) := by
  constructor
  · intro e hfail hprev
    have hg := getEmbedding_fail cfg net texts k hk e hfail hprev
    unfold embed_documents
    rw [hg]
    exact ⟨rfl, rfl⟩
  · intro e hfail hprev
    have hg := agetEmbedding_fail cfg anet texts k hk e hfail hprev
    unfold aembed_documents
    rw [hg]
    exact ⟨rfl, rfl⟩

/-- C6 witness: in the batch `["a", "b", "c"]` the request for `"b"` fails;
the error propagates, only the requests for `"a"` and `"b"` are issued, and
no vector list is returned. -/
theorem C6_batch_abort_witness :
    (embed_documents cfgEx netPartial ["a", "b", "c"]).1
        = .error (.providerError badResp)
    ∧ (embed_documents cfgEx netPartial ["a", "b", "c"]).2
        = (["a", "b", "c"].take 2).map (textReq cfgEx)
    ∧ (aembed_documents cfgEx anetPartial ["a", "b", "c"]).1
        = .error (.providerError badResp)
    ∧ (aembed_documents cfgEx anetPartial ["a", "b", "c"]).2
        = (["a", "b", "c"].take 2).map (atextReq cfgEx) := by
  have h := C6_batch_abort cfgEx netPartial anetPartial ["a", "b", "c"] 1 (by decide)
  have hs := h.1 (.providerError badResp) rfl (by decide)
  have ha := h.2 (.providerError badResp) rfl (by decide)
  exact ⟨hs.1, hs.2, ha.1, ha.2⟩

/-- The environment fallback succeeds exactly when the variable is set and
non-empty. -/
theorem get_from_env_succeeds (envVal : Option String) (key : String) :
    succeeds (get_from_env envVal key) = truthyOpt envVal := by
  cases envVal with
  | none => rfl
  | some s =>
    by_cases h : s = ""
    · subst h; rfl
    · simp [get_from_env, truthyOpt, succeeds, h]

/-- The resolution helper succeeds exactly when the supplied value is truthy
(present and non-empty) or its environment variable is set and non-empty. -/
theorem get_from_dict_or_env_succeeds (v envVal : Option String) (key : String) :
    succeeds (get_from_dict_or_env v envVal key)
      = (truthyOpt v || truthyOpt envVal) := by
  cases v with
  | none => simp [get_from_dict_or_env, truthyOpt, get_from_env_succeeds]
  | some s =>
    by_cases h : s = ""
    · subst h
      simp [get_from_dict_or_env, truthyOpt, get_from_env_succeeds]
    · simp [get_from_dict_or_env, truthyOpt, succeeds, h]

/-- C7: construction succeeds exactly when each of the three secrets is
supplied truthy (present and non-empty — a supplied empty `SecretStr` is
falsy and falls back to the environment) or available from its named
environment variable, and the model is one of the two recognized
identifiers; otherwise the validator raises. -/
theorem C7_construction_validation (values : ConstructorValues) (env : Env) :
    succeeds (check_api_keys values env) = true ↔
      ((truthyOpt values.api_key || truthyOpt env.NCP_CLOVASTUDIO_API_KEY) = true
       ∧ (truthyOpt values.api_gw_key || truthyOpt env.NCP_APIGW_API_KEY) = true
       ∧ (truthyOpt values.app_id || truthyOpt env.NCP_EMB_APP_ID) = true
       ∧ (values.model = "clir-emb-dolphin" ∨ values.model = "clir-sts-dolphin")) := by
  have key : succeeds (check_api_keys values env)
      = ((truthyOpt values.api_key || truthyOpt env.NCP_CLOVASTUDIO_API_KEY)
         && (truthyOpt values.api_gw_key || truthyOpt env.NCP_APIGW_API_KEY)
         && (truthyOpt values.app_id || truthyOpt env.NCP_EMB_APP_ID)
         && (decide (values.model = "clir-emb-dolphin"
              ∨ values.model = "clir-sts-dolphin"))) := by
    unfold check_api_keys
    cases h1 : get_from_dict_or_env values.api_key env.NCP_CLOVASTUDIO_API_KEY "api_key" with
    | error err =>
      have hX1 : (truthyOpt values.api_key || truthyOpt env.NCP_CLOVASTUDIO_API_KEY)
          = false := by
        rw [← get_from_dict_or_env_succeeds values.api_key
          env.NCP_CLOVASTUDIO_API_KEY "api_key", h1]
        rfl
      rw [hX1]
      simp [succeeds]
    | ok s1 =>
      have hX1 : (truthyOpt values.api_key || truthyOpt env.NCP_CLOVASTUDIO_API_KEY)
          = true := by
        rw [← get_from_dict_or_env_succeeds values.api_key
          env.NCP_CLOVASTUDIO_API_KEY "api_key", h1]
        rfl
      cases h2 : get_from_dict_or_env values.api_gw_key env.NCP_APIGW_API_KEY "api_gw_key" with
      | error err =>
        have hX2 : (truthyOpt values.api_gw_key || truthyOpt env.NCP_APIGW_API_KEY)
            = false := by
          rw [← get_from_dict_or_env_succeeds values.api_gw_key
            env.NCP_APIGW_API_KEY "api_gw_key", h2]
          rfl
        rw [hX1, hX2]
        simp [succeeds]
      | ok s2 =>
        have hX2 : (truthyOpt values.api_gw_key || truthyOpt env.NCP_APIGW_API_KEY)
            = true := by
          rw [← get_from_dict_or_env_succeeds values.api_gw_key
            env.NCP_APIGW_API_KEY "api_gw_key", h2]
          rfl
        cases h3 : get_from_dict_or_env values.app_id env.NCP_EMB_APP_ID "app_id" with
        | error err =>
          have hX3 : (truthyOpt values.app_id || truthyOpt env.NCP_EMB_APP_ID)
              = false := by
            rw [← get_from_dict_or_env_succeeds values.app_id
              env.NCP_EMB_APP_ID "app_id", h3]
            rfl
          rw [hX1, hX2, hX3]
          simp [succeeds]
        | ok s3 =>
          have hX3 : (truthyOpt values.app_id || truthyOpt env.NCP_EMB_APP_ID)
              = true := by
            rw [← get_from_dict_or_env_succeeds values.app_id
              env.NCP_EMB_APP_ID "app_id", h3]
            rfl
          rw [hX1, hX2, hX3]
          by_cases hm : values.model = "clir-emb-dolphin" ∨ values.model = "clir-sts-dolphin"
          · simp [succeeds, hm]
          · simp [succeeds, hm]
  rw [key]
  simp only [Bool.and_eq_true, decide_eq_true_eq]
  tauto

/-- C7 witness: all three secrets supplied and a valid model succeeds; the
unrecognized model `"not-a-model"` fails even with every secret supplied;
and a supplied empty `api_key` with its environment variable unset is falsy,
falls back to the environment and fails. -/
theorem C7_construction_validation_witness :
    succeeds (check_api_keys
      { model := "clir-emb-dolphin", api_key := .some "k",
        api_gw_key := .some "g", app_id := .some "a" } {}) = true
    ∧ succeeds (check_api_keys
      { model := "not-a-model", api_key := .some "k",
        api_gw_key := .some "g", app_id := .some "a" } {}) = false
    ∧ succeeds (check_api_keys
      { model := "clir-emb-dolphin", api_key := .some "",
        api_gw_key := .some "g", app_id := .some "a" } {}) = false := by
  refine ⟨?_, ?_, ?_⟩
  · exact (C7_construction_validation _ _).mpr ⟨by decide, by decide, by decide, Or.inl rfl⟩
  · cases hb : succeeds (check_api_keys
      { model := "not-a-model", api_key := .some "k",
        api_gw_key := .some "g", app_id := .some "a" } {}) with
    | false => rfl
    | true =>
      rcases (C7_construction_validation _ _).mp hb with ⟨_, _, _, hm | hm⟩ <;>
        exact absurd hm (by decide)
  · cases hb : succeeds (check_api_keys
      { model := "clir-emb-dolphin", api_key := .some "",
        api_gw_key := .some "g", app_id := .some "a" } {}) with
    | false => rfl
    | true =>
      have hk := ((C7_construction_validation _ _).mp hb).1
      exact absurd hk (by decide)

end HCX
